import Mathlib

/-!
Verification of the core streaming-runtime processors of a data-integration
engine (retry, rate-limit, mapping/mutation, sync-response) and of its
resource manager, against a shallow embedding of the Go source.

Message parts (`MsgPart`) are embedded with value semantics: a source part supports
shallow copies whose mutations are isolated from the original through a
copy-on-write layer, so a copy is simply the same value.  Durations
(`time.Duration`) are embedded as integers (nanoseconds); the sentinel
`backoff.Stop` is `-1`.  Stateful loops are embedded as fuel-bounded
recursion returning `Option` (`none` means the fuel bound was reached),
with the environment (child-processor results, backoff values, context
cancellation observations, rate-limit access outcomes) supplied as explicit
functions of the iteration index.
-/

/-- Metadata values stored on a message part.  The retry processor stamps an
`int` (`retry_count`) and a `time.Duration` (`backoff_duration`); durations
are integers in nanoseconds. -/
inductive MetaVal where
  | int : Int → MetaVal
  | dur : Int → MetaVal
  | str : String → MetaVal
deriving DecidableEq, Repr

/-- Modelled from the spec: a message part (the `message.Part` type is not
part of the examined slice): an opaque byte payload, a mutable metadata
mapping from string keys to values, and an optional error tag.  Mutations on
a shallow copy do not affect the original (copy-on-write), which value
semantics captures directly. -/
structure MsgPart where
  bytes : List Nat
  meta : List (String × MetaVal)
  errTag : Option String
deriving DecidableEq, Repr

/-- Modelled from the spec: the source `ShallowCopy` returns a part backed by the
same data whose mutations are isolated from the original; under value
semantics the copy is the same value. -/
def MsgPart.shallowCopy (p : MsgPart) : MsgPart := p

/-- The source `Part.ErrorSet`: replaces the error tag (a `nil` error clears
it). -/
def MsgPart.errorSet (p : MsgPart) (e : Option String) : MsgPart := { p with errTag := e }

/-- The source `Part.ErrorGet`: reads the error tag. -/
def MsgPart.errorGet (p : MsgPart) : Option String := p.errTag

/-- The source `Part.MetaSetMut`: sets a metadata key to a value,
overwriting any previous binding of that key. -/
def MsgPart.metaSetMut (p : MsgPart) (k : String) (v : MetaVal) : MsgPart :=
  { p with meta := (k, v) :: p.meta.filter (fun kv => kv.1 ≠ k) }

/-- The source `Part.MetaGetMut`: reads a metadata key. -/
def MsgPart.metaGet (p : MsgPart) (k : String) : Option MetaVal :=
  (p.meta.find? (fun kv => kv.1 = k)).map (fun kv => kv.2)

/-- A batch is an ordered sequence of parts (`message.Batch`). -/
abbrev Batch := List MsgPart

/-- The sentinel `backoff.Stop` of the backoff library: `-1` nanosecond. -/
def backoffStop : Int := -1

/-- The error value produced by `ctx.Err()` once a context is cancelled. -/
def ctxCanceledErr : String := "context canceled"

/-- Configuration of the retry processor relevant to `dispatchMessage`: the
`max_retries` field (a Go `int`; `0` means unbounded) and the per-dispatch
backoff, embedded as the sequence of values returned by successive
`NextBackOff` calls on the freshly reset copy of the configured policy
(`backoffStop` when the max-elapsed-time budget is exceeded). -/
structure RetryConfig where
  maxRetries : Int
  boff : Nat → Int

/-- How a terminating run of the retry dispatch loop exited: all output
parts clean, the retry counter reached `max_retries`, or the backoff
returned `Stop`. -/
inductive RetryExit where
  | success
  | maxRetriesHit
  | backoffStopHit
deriving DecidableEq, Repr

/-- The deferred metadata stamp of `retryProc.dispatchMessage`: on exit every
part of every result batch receives `retry_count` and `backoff_duration`. -/
def stampRetryMeta (retries : Int) (dur : Int) (bs : List Batch) : List Batch :=
  bs.map (fun b => b.map (fun m =>
    (m.metaSetMut "retry_count" (.int retries)).metaSetMut "backoff_duration" (.dur dur)))

/-- The loop of `retryProc.dispatchMessage`, instrumented with a trace.
Arguments mirror the Go locals: `p` is the input part with its error tag
already cleared, `attempt` counts loop iterations (indexing the
environment), `retries` and `dur` are the Go `retries` and `backoffDuration`
variables, and `slept` records the durations of the sleeps that actually
completed.  The environment supplies `children` — the result of
`processor.ExecuteAll` on the child chain for a given attempt and input
batch — and `cancelAt k`, true when the sleep select of iteration `k`
observes `ctx.Done()`.  The result carries `(resBatches, err)` after the
deferred stamping, together with the sleep trace and the exit kind (`none`
for the fatal exits, which stamp nothing because `resBatches` is nil). -/
def retryGoT (cfg : RetryConfig) (children : Nat → Batch → Except String (List Batch))
    (cancelAt : Nat → Bool) (p : MsgPart) (attempt : Nat) (retries : Int) (dur : Int)
    (slept : List Int) : Nat → Option ((List Batch × Option String) × List Int × Option RetryExit)
  | 0 => none
  | fuel + 1 =>
    match children attempt [p.shallowCopy] with
    | .error e => some (([], some e), slept, none)
    | .ok resBatches =>
      let hasFailed := resBatches.any (fun b => b.any (fun m => m.errorGet.isSome))
      if hasFailed then
        let retries2 := retries + 1
        if retries2 = cfg.maxRetries then
          some ((stampRetryMeta retries2 dur resBatches, none), slept, some .maxRetriesHit)
        else
          let nextSleep := cfg.boff attempt
          let dur2 := dur + nextSleep
          if nextSleep = backoffStop then
            some ((stampRetryMeta retries2 dur2 resBatches, none), slept, some .backoffStopHit)
          else if cancelAt attempt then
            some (([], some ctxCanceledErr), slept, none)
          else
            retryGoT cfg children cancelAt p (attempt + 1) retries2 dur2 (slept ++ [nextSleep]) fuel
      else
        some ((stampRetryMeta retries dur resBatches, none), slept, some .success)

/-- The source `retryProc.dispatchMessage` with its trace: resets the
backoff (the environment `cfg.boff` is already the reset copy), clears the
error tag of the input part, then runs the retry loop. -/
def dispatchMessageT (cfg : RetryConfig) (children : Nat → Batch → Except String (List Batch))
    (cancelAt : Nat → Bool) (p : MsgPart) (fuel : Nat) :
    Option ((List Batch × Option String) × List Int × Option RetryExit) :=
  retryGoT cfg children cancelAt (p.errorSet none) 0 0 0 [] fuel

/-- The source `retryProc.dispatchMessage`: the observable result
`(resBatches, err)` of the traced embedding. -/
def dispatchMessage (cfg : RetryConfig) (children : Nat → Batch → Except String (List Batch))
    (cancelAt : Nat → Bool) (p : MsgPart) (fuel : Nat) : Option (List Batch × Option String) :=
  (dispatchMessageT cfg children cancelAt p fuel).map (fun r => r.1)

/-- The source `syncResponseProc.ProcessBatch`: attempts to stamp the batch
as the synchronous response (the `transaction.SetAsResponse` call is outside
the examined slice and is embedded as an opaque outcome); a failure is only
logged, and the input batch is returned unchanged with a nil error. -/
def syncResponseProcessBatch (setAsResponse : Batch → Except String Unit) (msg : Batch) :
    List Batch × Option String :=
  match setAsResponse msg with
  | .error _ => ([msg], none)
  | .ok _ => ([msg], none)

/-- The environment of one iteration for `rateLimitProc.Process`: the outcome of
`mgr.AccessRateLimit` (`rerr`, an error when the named resource cannot be
accessed, in which case the closure never runs), and the `(waitFor, err)`
pair assigned by `rl.Access(ctx)` inside the closure when it does run. -/
structure RLStep where
  rerr : Option String
  waitFor : Int
  aerr : Option String

/-- What the sleep select of an iteration of `rateLimitProc.Process`
observes first: the `time.After` timer, `ctx.Done()`, or the close channel of
the processor. -/
inductive RLSleepEvent where
  | completed
  | ctxDone
  | closed
deriving DecidableEq, Repr

/-- The environment of a run of `rateLimitProc.Process`: per-iteration
access outcomes, whether `ctx.Err()` is non-nil at the check following the
access of each iteration, and what the sleep select of each iteration observes. -/
structure RLTrace where
  step : Nat → RLStep
  cancelledAt : Nat → Bool
  sleepEvent : Nat → RLSleepEvent

/-- The error `component.ErrTypeClosed` returned when the close channel of the
processor fires during the sleep. -/
def errTypeClosed : String := "type was closed"

/-- One second in nanoseconds, the fallback sleep after a failed access. -/
def oneSecondNs : Int := 1000000000

/-- The loop of `rateLimitProc.Process` at iteration `k`, fuel-bounded.
Mirrors the Go body: run the access (when `AccessRateLimit` itself fails the
closure is skipped, so `waitFor` keeps its zero value and the error is
overwritten by `rerr`); if `ctx.Err()` is non-nil return `(nil, err)`; if
the error is non-nil log it and sleep one second; if `waitFor` is zero admit
the part; otherwise sleep on a select of the timer, `ctx.Done()` and the
close channel. -/
def rateLimitGo (tr : RLTrace) (msg : MsgPart) (k : Nat) :
    Nat → Option (Option (List MsgPart) × Option String)
  | 0 => none
  | fuel + 1 =>
    let s := tr.step k
    let waitFor0 := if s.rerr.isSome then 0 else s.waitFor
    let err0 := if s.rerr.isSome then s.rerr else s.aerr
    if tr.cancelledAt k then
      some (none, err0)
    else
      let waitFor := if err0.isSome then oneSecondNs else waitFor0
      if waitFor = 0 then
        some (some [msg], none)
      else
        match tr.sleepEvent k with
        | .completed => rateLimitGo tr msg (k + 1) fuel
        | .ctxDone => some (none, some ctxCanceledErr)
        | .closed => some (none, some errTypeClosed)

/-- The source `rateLimitProc.Process`: the admission loop starting at
iteration `0`. -/
def rateLimitProcess (tr : RLTrace) (msg : MsgPart) (fuel : Nat) :
    Option (Option (List MsgPart) × Option String) :=
  rateLimitGo tr msg 0 fuel

/-- The loop body of `mappingProc.ProcessBatch` over the enumerated parts of
the input batch `b`: a failed `MapPart` keeps the original part with its
error tag set (`ctx.OnError` ends in `MarkErr`, which calls `ErrorSet`), a
nil result deletes the part, and a non-nil result replaces it. -/
def mappingLoop (exec : Nat → Batch → Except String (Option MsgPart)) (b : Batch) :
    List (Nat × MsgPart) → Batch
  | [] => []
  | (i, msg) :: rest =>
    match exec i b with
    | .error e => msg.errorSet (some e) :: mappingLoop exec b rest
    | .ok none => mappingLoop exec b rest
    | .ok (some newPart) => newPart :: mappingLoop exec b rest

/-- The source `mappingProc.ProcessBatch`: the method
`MapPart(i, b)` of the expression executor is the environment `exec`; an empty output batch is dropped
by returning `(nil, nil)`. -/
def mappingProcessBatch (exec : Nat → Batch → Except String (Option MsgPart)) (b : Batch) :
    Option (List Batch) × Option String :=
  let newBatch := mappingLoop exec b b.enum
  if newBatch = [] then (none, none) else (some [newBatch], none)

/-- The loop body of `mutationProc.ProcessBatch`: identical to the mapping
loop except that the executor method `MapOnto(msg, i, b)` also receives the part
being transformed in place. -/
def mutationLoop (exec : MsgPart → Nat → Batch → Except String (Option MsgPart)) (b : Batch) :
    List (Nat × MsgPart) → Batch
  | [] => []
  | (i, msg) :: rest =>
    match exec msg i b with
    | .error e => msg.errorSet (some e) :: mutationLoop exec b rest
    | .ok none => mutationLoop exec b rest
    | .ok (some newPart) => newPart :: mutationLoop exec b rest

/-- The source `mutationProc.ProcessBatch`. -/
def mutationProcessBatch (exec : MsgPart → Nat → Batch → Except String (Option MsgPart))
    (b : Batch) : Option (List Batch) × Option String :=
  let newBatch := mutationLoop exec b b.enum
  if newBatch = [] then (none, none) else (some [newBatch], none)

/-- Modelled from the spec: the per-kind label admission of `manager.New`
(the manager implementation is not in the examined slice; the error strings
are pinned by its tests): resources of one kind are admitted left to right,
an empty label fails construction, and a label equal to an already admitted
one fails with a collision diagnostic. -/
def checkResourceLabels (kindName : String) (seen : List String) :
    List String → Except String (List String)
  | [] => .ok seen
  | l :: rest =>
    if l = "" then .error (kindName ++ " resource has an empty label")
    else if seen.contains l then
      .error (kindName ++ " resource label \x27" ++ l ++
        "\x27 collides with a previously defined resource")
    else checkResourceLabels kindName (seen ++ [l]) rest

/-- The five per-kind label mappings held by the resource manager, reduced
to the admitted labels. -/
structure ManagerState where
  caches : List String
  rateLimits : List String
  processors : List String
  inputs : List String
  outputs : List String
deriving DecidableEq, Repr

/-- The resource lists of a manager configuration, reduced to their labels
(construction-time admission only inspects labels). -/
structure ResourceConfig where
  resourceCaches : List String
  resourceRateLimits : List String
  resourceProcessors : List String
  resourceInputs : List String
  resourceOutputs : List String
deriving DecidableEq, Repr

/-- Modelled from the spec: `manager.New` admits the resource
labels of each kind into the mapping of that kind alone, failing on an empty or colliding label
within a kind; the five namespaces are independent. -/
def managerNew (conf : ResourceConfig) : Except String ManagerState :=
  match checkResourceLabels "cache" [] conf.resourceCaches with
  | .error e => .error e
  | .ok cs =>
  match checkResourceLabels "rate limit" [] conf.resourceRateLimits with
  | .error e => .error e
  | .ok rls =>
  match checkResourceLabels "processor" [] conf.resourceProcessors with
  | .error e => .error e
  | .ok ps =>
  match checkResourceLabels "input" [] conf.resourceInputs with
  | .error e => .error e
  | .ok ins =>
  match checkResourceLabels "output" [] conf.resourceOutputs with
  | .error e => .error e
  | .ok outs => .ok ⟨cs, rls, ps, ins, outs⟩

/-- Modelled from the spec: the label pattern `[a-z][a-z0-9_]*` that §3 of
the specification claims every resource label is validated against. -/
def isLabelHeadChar (c : Char) : Bool :=
  ('a' ≤ c && c ≤ 'z')

/-- A character admissible after the first one under `[a-z][a-z0-9_]*`. -/
def isLabelTailChar (c : Char) : Bool :=
  ('a' ≤ c && c ≤ 'z') || ('0' ≤ c && c ≤ '9') || c = '_'

/-- Whether a string matches `[a-z][a-z0-9_]*`. -/
def matchesLabelPattern (s : String) : Bool :=
  match s.data with
  | [] => false
  | c :: rest => isLabelHeadChar c && rest.all isLabelTailChar

/-- Modelled from the spec and the own test of the repository: component
construction by the manager (`mgr.NewProcessor`) no longer validates labels
— `TestManagerProcessorLabels` is skipped with the message \x22No longer
validating labels at construction\x22 — so any label is accepted. -/
def managerNewProcessor (_label : String) : Except String Unit :=
  .ok ()

/-- C7: the retry processor clears the error tag of the input part before
the first attempt: the dispatch result is the same whether or not the part
entered with a pre-existing error tag, and the part handed to the child
chain carries no error tag. -/
theorem retry_clears_error_tag (cfg : RetryConfig)
    (children : Nat → Batch → Except String (List Batch)) (cancelAt : Nat → Bool)
    (p : MsgPart) (fuel : Nat) :
    dispatchMessage cfg children cancelAt p fuel
      = dispatchMessage cfg children cancelAt (p.errorSet none) fuel ∧
    ((p.errorSet none).shallowCopy).errorGet = none := by
  constructor
  · rfl
  · rfl

/-- C8: the sync-response processor always returns exactly its input batch
as a single output batch with a nil error, also when stamping the batch as
the synchronous response fails. -/
theorem sync_response_returns_input (setAsResponse : Batch → Except String Unit) (msg : Batch) :
    syncResponseProcessBatch setAsResponse msg = ([msg], none) := by
  unfold syncResponseProcessBatch
  cases setAsResponse msg <;> rfl

/-- Stamping `backoff_duration` last makes it the newest binding: reading it
back yields the stamped duration. -/
theorem metaGet_stamp_backoff_duration (r d : Int) (m : MsgPart) :
    ((m.metaSetMut "retry_count" (.int r)).metaSetMut "backoff_duration"
        (.dur d)).metaGet "backoff_duration" = some (.dur d) := by
  unfold MsgPart.metaGet MsgPart.metaSetMut
  rw [List.find?_cons_of_pos _ (by simp)]
  rfl

/-- Reading `retry_count` back from a stamped part yields the stamped
counter: the `backoff_duration` binding does not shadow it and the
`metaSetMut` filter keeps it. -/
theorem metaGet_stamp_retry_count (r d : Int) (m : MsgPart) :
    ((m.metaSetMut "retry_count" (.int r)).metaSetMut "backoff_duration"
        (.dur d)).metaGet "retry_count" = some (.int r) := by
  unfold MsgPart.metaGet MsgPart.metaSetMut
  rw [List.find?_cons_of_neg _ (by simp), List.filter_cons_of_pos (by simp),
    List.find?_cons_of_pos _ (by simp)]
  rfl

/-- Setting metadata does not touch the error tag. -/
theorem errorGet_metaSetMut (m : MsgPart) (k : String) (v : MetaVal) :
    (m.metaSetMut k v).errorGet = m.errorGet := rfl

/-- A batch list with some error-tagged part keeps one after stamping. -/
theorem stampRetryMeta_errTag_mem (R D : Int) (res : List Batch)
    (h : res.any (fun b => b.any (fun m => m.errorGet.isSome)) = true) :
    ∃ b ∈ stampRetryMeta R D res, ∃ m ∈ b, m.errorGet.isSome = true := by
  obtain ⟨b0, hb0, hb0f⟩ := List.any_eq_true.mp h
  obtain ⟨m0, hm0, hm0f⟩ := List.any_eq_true.mp hb0f
  refine ⟨b0.map (fun m =>
      (m.metaSetMut "retry_count" (.int R)).metaSetMut "backoff_duration" (.dur D)),
    List.mem_map_of_mem _ hb0,
    (m0.metaSetMut "retry_count" (.int R)).metaSetMut "backoff_duration" (.dur D),
    List.mem_map_of_mem _ hm0, ?_⟩
  rw [errorGet_metaSetMut, errorGet_metaSetMut]
  exact hm0f

/-- C1: retry discard.  Every attempt of the child chain receives a fresh
shallow copy of the part as it first entered the retry processor (its error
tag cleared), so the dispatch result depends only on what the children
return for that pristine input: two child chains that agree on it — however
much their behaviour differs on parts mutated during failed attempts —
produce identical dispatch results, byte payloads included. -/
theorem retry_discard (cfg : RetryConfig)
    (f g : Nat → Batch → Except String (List Batch)) (cancelAt : Nat → Bool)
    (p : MsgPart) (fuel : Nat)
    (h : ∀ k, f k [(p.errorSet none).shallowCopy] = g k [(p.errorSet none).shallowCopy]) :
    dispatchMessage cfg f cancelAt p fuel = dispatchMessage cfg g cancelAt p fuel := by
  unfold dispatchMessage dispatchMessageT
  suffices hgen : ∀ fuel attempt retries dur slept,
      retryGoT cfg f cancelAt (p.errorSet none) attempt retries dur slept fuel
        = retryGoT cfg g cancelAt (p.errorSet none) attempt retries dur slept fuel by
    rw [hgen]
  intro fuel
  induction fuel with
  | zero => intro attempt retries dur slept; rfl
  | succ n ih =>
    intro attempt retries dur slept
    simp only [retryGoT]
    rw [h attempt]
    cases g attempt [(p.errorSet none).shallowCopy] with
    | error e => rfl
    | ok resBatches =>
      simp only
      split <;> try rfl
      split <;> try rfl
      split <;> try rfl
      split <;> try rfl
      exact ih _ _ _ _

/-- Witness for C1 at a concrete input: a child chain that echoes its input
and one that additionally rewrites any part that does not carry the
pristine payload (a mutation visible only on non-pristine inputs) yield the
same dispatch result. -/
theorem retry_discard_witness :
    dispatchMessage ⟨0, fun _ => 10⟩ (fun _ b => .ok [b]) (fun _ => false)
        ⟨[120], [], none⟩ 4
      = dispatchMessage ⟨0, fun _ => 10⟩
          (fun _ b =>
            if b = [⟨[120], [], none⟩] then .ok [b] else .ok [[⟨[9], [], none⟩]])
          (fun _ => false) ⟨[120], [], none⟩ 4 :=
  retry_discard ⟨0, fun _ => 10⟩ (fun _ b => .ok [b])
    (fun _ b => if b = [⟨[120], [], none⟩] then .ok [b] else .ok [[⟨[9], [], none⟩]])
    (fun _ => false) ⟨[120], [], none⟩ 4 (fun _ => rfl)

/-- C2: retry exhaustion.  When the retry budget is exhausted the dispatch
returns the last child result with its error tags still set and a nil —
not fatal — error, on either budget exit: when the backoff returns `Stop`
after a failed attempt (with the retry counter short of `max_retries`),
and when the counter reaches `max_retries`; in the latter case, with
`max_retries = 2` and a child chain failing on both attempts, every output
part is stamped `retry_count = 2`. -/
theorem retry_exhaustion (cfg : RetryConfig)
    (children : Nat → Batch → Except String (List Batch)) (cancelAt : Nat → Bool)
    (p : MsgPart) (fuel : Nat) (r0 r1 : List Batch)
    (h0 : children 0 [(p.errorSet none).shallowCopy] = .ok r0)
    (h0f : r0.any (fun b => b.any (fun m => m.errorGet.isSome)) = true) :
    (cfg.boff 0 = backoffStop → (1 : Int) ≠ cfg.maxRetries →
      dispatchMessage cfg children cancelAt p (fuel + 1)
        = some (stampRetryMeta 1 backoffStop r0, none) ∧
      ∃ b ∈ stampRetryMeta 1 backoffStop r0, ∃ m ∈ b, m.errorGet.isSome = true) ∧
    (children 1 [(p.errorSet none).shallowCopy] = .ok r1 →
      r1.any (fun b => b.any (fun m => m.errorGet.isSome)) = true →
      cfg.maxRetries = 2 → cfg.boff 0 ≠ backoffStop → cancelAt 0 = false →
      dispatchMessage cfg children cancelAt p (fuel + 2)
        = some (stampRetryMeta 2 (cfg.boff 0) r1, none) ∧
      (∀ b ∈ stampRetryMeta 2 (cfg.boff 0) r1, ∀ m ∈ b,
        m.metaGet "retry_count" = some (.int 2)) ∧
      ∃ b ∈ stampRetryMeta 2 (cfg.boff 0) r1, ∃ m ∈ b, m.errorGet.isSome = true) := by
  constructor
  · intro hstop hne
    have hne2 : ¬((0 : Int) + 1 = cfg.maxRetries) := by simpa using hne
    refine ⟨?_, stampRetryMeta_errTag_mem 1 backoffStop r0 h0f⟩
    unfold dispatchMessage dispatchMessageT
    simp only [retryGoT, h0, h0f, if_true, hne2, if_false, hstop, Option.map_some]
    norm_num
  · intro h1 h1f hmax hboff hcancel
    refine ⟨?_, ?_, stampRetryMeta_errTag_mem 2 (cfg.boff 0) r1 h1f⟩
    · unfold dispatchMessage dispatchMessageT
      simp only [retryGoT, h0, h0f, h1, h1f, hmax, hboff, hcancel, if_true, if_false,
        Int.zero_add, Int.reduceAdd, Option.map_some]
      norm_num
    · intro b hb m hm
      unfold stampRetryMeta at hb
      obtain ⟨b0, -, rfl⟩ := List.mem_map.mp hb
      obtain ⟨m0, -, rfl⟩ := List.mem_map.mp hm
      exact metaGet_stamp_retry_count 2 (cfg.boff 0) m0

/-- Witness for C2: a child chain that always returns its input tagged with
an error, under a backoff that immediately returns `Stop` (first conjunct)
and under `max_retries = 2` with a `100` ns backoff (second conjunct). -/
theorem retry_exhaustion_witness :
    dispatchMessage ⟨2, fun _ => backoffStop⟩
        (fun _ b => .ok [b.map (fun m => m.errorSet (some "nope"))]) (fun _ => false)
        ⟨[120], [], none⟩ 1
      = some (stampRetryMeta 1 backoffStop [[⟨[120], [], some "nope"⟩]], none) ∧
    dispatchMessage ⟨2, fun _ => 100⟩
        (fun _ b => .ok [b.map (fun m => m.errorSet (some "nope"))]) (fun _ => false)
        ⟨[120], [], none⟩ 2
      = some (stampRetryMeta 2 100 [[⟨[120], [], some "nope"⟩]], none) :=
  ⟨((retry_exhaustion ⟨2, fun _ => backoffStop⟩
      (fun _ b => .ok [b.map (fun m => m.errorSet (some "nope"))]) (fun _ => false)
      ⟨[120], [], none⟩ 0 [[⟨[120], [], some "nope"⟩]] [[⟨[120], [], some "nope"⟩]]
      (by rfl) (by decide)).1 rfl (by decide)).1,
   ((retry_exhaustion ⟨2, fun _ => 100⟩
      (fun _ b => .ok [b.map (fun m => m.errorSet (some "nope"))]) (fun _ => false)
      ⟨[120], [], none⟩ 0 [[⟨[120], [], some "nope"⟩]] [[⟨[120], [], some "nope"⟩]]
      (by rfl) (by decide)).2 (by rfl) (by decide) rfl (by decide) rfl).1⟩

/-- Every part of a stamped batch list carries the stamped metadata. -/
theorem stampRetryMeta_metaGet (R D : Int) (res : List Batch) :
    ∀ b ∈ stampRetryMeta R D res, ∀ m ∈ b,
      m.metaGet "retry_count" = some (.int R) ∧
      m.metaGet "backoff_duration" = some (.dur D) := by
  intro b hb m hm
  obtain ⟨b0, -, rfl⟩ := List.mem_map.mp hb
  obtain ⟨m0, -, rfl⟩ := List.mem_map.mp hm
  exact ⟨metaGet_stamp_retry_count R D m0, metaGet_stamp_backoff_duration R D m0⟩

/-- Invariant of the retry loop: starting from accumulators that agree with
the sleep trace (`retries` is its length, `dur` its sum), a non-fatal exit
stamps `retry_count` with the number of failed attempts (the sleeps
performed, plus one unless the exit is a success) and `backoff_duration`
with the total duration slept — plus the `backoffStop` sentinel when the
exit was caused by the backoff returning `Stop`, because the Go code adds
`nextSleep` to the accumulator before comparing it against `Stop`. -/
theorem retryGoT_stamp_invariant (cfg : RetryConfig)
    (children : Nat → Batch → Except String (List Batch)) (cancelAt : Nat → Bool)
    (q : MsgPart) :
    ∀ (fuel attempt : Nat) (slept : List Int) (bs : List Batch)
      (slept' : List Int) (exit : RetryExit),
      retryGoT cfg children cancelAt q attempt ((slept.length : Int)) slept.sum slept fuel
        = some ((bs, none), slept', some exit) →
      ∀ b ∈ bs, ∀ m ∈ b,
        m.metaGet "retry_count"
          = some (.int ((slept'.length : Int) + (if exit = .success then 0 else 1))) ∧
        m.metaGet "backoff_duration"
          = some (.dur (slept'.sum + (if exit = .backoffStopHit then backoffStop else 0))) := by
  intro fuel
  induction fuel with
  | zero =>
    intro attempt slept bs slept' exit h
    exact absurd h (by simp [retryGoT])
  | succ n ih =>
    intro attempt slept bs slept' exit h
    simp only [retryGoT] at h
    cases hc : children attempt [q.shallowCopy] with
    | error e => rw [hc] at h; simp at h
    | ok res =>
      rw [hc] at h
      dsimp only at h
      by_cases hf : res.any (fun b => b.any (fun m => m.errorGet.isSome)) = true
      · rw [if_pos hf] at h
        by_cases hmx : (slept.length : Int) + 1 = cfg.maxRetries
        · rw [if_pos hmx] at h
          simp only [Option.some.injEq, Prod.mk.injEq] at h
          obtain ⟨⟨hbs, -⟩, hsl, hex⟩ := h
          subst hbs; subst hsl; subst hex
          simpa using stampRetryMeta_metaGet ((slept.length : Int) + 1) slept.sum res
        · rw [if_neg hmx] at h
          by_cases hstop : cfg.boff attempt = backoffStop
          · rw [if_pos hstop] at h
            simp only [Option.some.injEq, Prod.mk.injEq] at h
            obtain ⟨⟨hbs, -⟩, hsl, hex⟩ := h
            subst hbs; subst hsl; subst hex
            simpa [hstop] using
              stampRetryMeta_metaGet ((slept.length : Int) + 1)
                (slept.sum + cfg.boff attempt) res
          · rw [if_neg hstop] at h
            by_cases hcan : cancelAt attempt = true
            · rw [if_pos hcan] at h; simp at h
            · rw [if_neg hcan] at h
              have h' : retryGoT cfg children cancelAt q (attempt + 1)
                  (((slept ++ [cfg.boff attempt]).length : Int))
                  ((slept ++ [cfg.boff attempt]).sum)
                  (slept ++ [cfg.boff attempt]) n
                  = some ((bs, none), slept', some exit) := by
                simpa [List.sum_append] using h
              exact ih (attempt + 1) (slept ++ [cfg.boff attempt]) bs slept' exit h'
      · rw [if_neg hf] at h
        simp only [Option.some.injEq, Prod.mk.injEq] at h
        obtain ⟨⟨hbs, -⟩, hsl, hex⟩ := h
        subst hbs; subst hsl; subst hex
        simpa using stampRetryMeta_metaGet ((slept.length : Int)) slept.sum res

/-- C3 (amended): on every non-fatal exit of the retry dispatch, each
emitted part is stamped with `retry_count` equal to the number of failed
attempts and with `backoff_duration` equal to the cumulative duration
actually slept — except that when the exit is due to the backoff returning
`Stop`, the stamped `backoff_duration` additionally includes the `Stop`
sentinel (`-1` ns), because the code adds `nextSleep` to the accumulator
before checking it against `Stop`. -/
theorem retry_metadata_amended (cfg : RetryConfig)
    (children : Nat → Batch → Except String (List Batch)) (cancelAt : Nat → Bool)
    (p : MsgPart) (fuel : Nat) (bs : List Batch) (slept : List Int) (exit : RetryExit)
    (h : dispatchMessageT cfg children cancelAt p fuel
      = some ((bs, none), slept, some exit)) :
    ∀ b ∈ bs, ∀ m ∈ b,
      m.metaGet "retry_count"
        = some (.int ((slept.length : Int) + (if exit = .success then 0 else 1))) ∧
      m.metaGet "backoff_duration"
        = some (.dur (slept.sum + (if exit = .backoffStopHit then backoffStop else 0))) := by
  apply retryGoT_stamp_invariant cfg children cancelAt (p.errorSet none) fuel 0 [] bs slept exit
  exact h

/-- Witness for the amended C3: a child chain failing on the first attempt
and succeeding on the second, with a `10` ns backoff: one sleep happened,
and the emitted part is stamped `retry_count = 1`, `backoff_duration = 10`. -/
theorem retry_metadata_amended_witness :
    MsgPart.metaGet
        ⟨[121], [("backoff_duration", MetaVal.dur 10), ("retry_count", MetaVal.int 1)], none⟩
        "retry_count" = some (.int 1) ∧
    MsgPart.metaGet
        ⟨[121], [("backoff_duration", MetaVal.dur 10), ("retry_count", MetaVal.int 1)], none⟩
        "backoff_duration" = some (.dur 10) :=
  retry_metadata_amended ⟨0, fun _ => 10⟩
    (fun k _ => if k = 0 then .ok [[⟨[120], [], some "e"⟩]] else .ok [[⟨[121], [], none⟩]])
    (fun _ => false) ⟨[120], [], none⟩ 2
    (stampRetryMeta 1 10 [[⟨[121], [], none⟩]]) [10] .success (by rfl)
    [⟨[121], [("backoff_duration", MetaVal.dur 10), ("retry_count", MetaVal.int 1)], none⟩]
    (by decide)
    ⟨[121], [("backoff_duration", MetaVal.dur 10), ("retry_count", MetaVal.int 1)], none⟩
    (by decide)

/-- Counterexample to C3 as stated: a child chain that always fails, with
`max_retries = 0` and a backoff that immediately returns `Stop`: the run
performs no sleep at all (the sleep trace is empty, cumulative slept
duration `0`), yet the emitted part is stamped `backoff_duration = -1`. -/
theorem retry_backoff_duration_counterexample :
    dispatchMessageT ⟨0, fun _ => backoffStop⟩
        (fun _ _ => .ok [[⟨[120], [], some "boom"⟩]]) (fun _ => false)
        ⟨[120], [], none⟩ 3
      = some ((stampRetryMeta 1 (-1) [[⟨[120], [], some "boom"⟩]], none), [],
          some .backoffStopHit) ∧
    (∀ b ∈ stampRetryMeta 1 (-1) [[⟨[120], [], some "boom"⟩]], ∀ m ∈ b,
      m.metaGet "backoff_duration" = some (.dur (-1))) ∧
    ([] : List Int).sum = 0 ∧ (-1 : Int) ≠ 0 := by
  refine ⟨by decide, by decide, rfl, by decide⟩

/-- C4 (amended): at every cancellation point of the rate-limit Process —
in every iteration `k` of the admission loop, not just the first — the call
returns a nil part list; the accompanying error is `ctx.Err()` exactly when
the cancellation is observed by a sleep select (whether the sleep is a
`waitFor` wait or the one-second fallback after a failed access, both of
which make the effective wait non-zero), while a `ctx.Err()` already
non-nil at the check right after the access makes the call return the error
of the access step itself — which may be nil — rather than `ctx.Err()`.
`rateLimitProcess` is the loop entered at iteration `0`. -/
theorem rate_limit_cancellation_amended (tr : RLTrace) (msg : MsgPart) (k fuel : Nat) :
    rateLimitProcess tr msg fuel = rateLimitGo tr msg 0 fuel ∧
    (tr.cancelledAt k = true →
      rateLimitGo tr msg k (fuel + 1)
        = some (none,
            if (tr.step k).rerr.isSome then (tr.step k).rerr else (tr.step k).aerr)) ∧
    (tr.cancelledAt k = false →
      (if (if (tr.step k).rerr.isSome then (tr.step k).rerr
            else (tr.step k).aerr).isSome then oneSecondNs
        else if (tr.step k).rerr.isSome then 0 else (tr.step k).waitFor) ≠ 0 →
      tr.sleepEvent k = .ctxDone →
      rateLimitGo tr msg k (fuel + 1) = some (none, some ctxCanceledErr)) := by
  refine ⟨rfl, ?_, ?_⟩
  · intro hcan
    simp [rateLimitGo, hcan]
  · intro hcan hwait hsleep
    simp only [rateLimitGo, hcan, Bool.false_eq_true, if_false, if_neg hwait, hsleep]

/-- Witness for the amended C4: a context already cancelled at the check of
iteration `0` returns the access error (here a resource error), not
`ctx.Err()`, and the whole Process call does so; a cancellation observed by
the one-second error-fallback sleep of iteration `1` returns `ctx.Err()`. -/
theorem rate_limit_cancellation_amended_witness :
    rateLimitProcess ⟨fun _ => ⟨none, 0, some "blocked"⟩, fun _ => true, fun _ => .completed⟩
        ⟨[97], [], none⟩ 1 = some (none, some "blocked") ∧
    rateLimitGo ⟨fun _ => ⟨none, 50, some "boom"⟩, fun _ => false, fun _ => .ctxDone⟩
        ⟨[97], [], none⟩ 1 1 = some (none, some ctxCanceledErr) :=
  ⟨(rate_limit_cancellation_amended
      ⟨fun _ => ⟨none, 0, some "blocked"⟩, fun _ => true, fun _ => .completed⟩
      ⟨[97], [], none⟩ 0 1).1.trans
    ((rate_limit_cancellation_amended
      ⟨fun _ => ⟨none, 0, some "blocked"⟩, fun _ => true, fun _ => .completed⟩
      ⟨[97], [], none⟩ 0 0).2.1 rfl),
   (rate_limit_cancellation_amended
      ⟨fun _ => ⟨none, 50, some "boom"⟩, fun _ => false, fun _ => .ctxDone⟩
      ⟨[97], [], none⟩ 1 0).2.2 rfl (by decide) rfl⟩

/-- Counterexample to C4 as stated: with the context cancelled before the
check following a successful access (`waitFor = 5`, no errors), the call
returns a nil part list with a nil error — not `ctx.Err()`, which is
non-nil for a cancelled context. -/
theorem rate_limit_ctx_err_counterexample :
    rateLimitProcess ⟨fun _ => ⟨none, 5, none⟩, fun _ => true, fun _ => .completed⟩
        ⟨[97], [], none⟩ 3 = some (none, none) ∧
    (⟨fun _ => ⟨none, 5, none⟩, fun _ => true, fun _ => .completed⟩ : RLTrace).cancelledAt 0
      = true ∧
    (none : Option String) ≠ some ctxCanceledErr :=
  ⟨rfl, rfl, by decide⟩

/-- A part whose executor call fails stays in the mapping loop output, its
error tag set. -/
theorem mappingLoop_error_mem (exec : Nat → Batch → Except String (Option MsgPart))
    (b : Batch) :
    ∀ (pairs : List (Nat × MsgPart)) (i : Nat) (msg : MsgPart) (e : String),
      (i, msg) ∈ pairs → exec i b = .error e →
      msg.errorSet (some e) ∈ mappingLoop exec b pairs := by
  intro pairs
  induction pairs with
  | nil => intro i msg e hm _; cases hm
  | cons hd tl ih =>
    obtain ⟨j, q⟩ := hd
    intro i msg e hm he
    rcases List.mem_cons.mp hm with heq | hmem
    · injection heq with h1 h2
      subst h1; subst h2
      simp only [mappingLoop, he]
      exact List.mem_cons_self _ _
    · have htail := ih i msg e hmem he
      simp only [mappingLoop]
      cases exec j b with
      | error e2 => exact List.mem_cons_of_mem _ htail
      | ok op =>
        cases op with
        | none => exact htail
        | some np => exact List.mem_cons_of_mem _ htail

/-- A part whose executor call fails stays in the mutation loop output, its
error tag set. -/
theorem mutationLoop_error_mem
    (exec : MsgPart → Nat → Batch → Except String (Option MsgPart)) (b : Batch) :
    ∀ (pairs : List (Nat × MsgPart)) (i : Nat) (msg : MsgPart) (e : String),
      (i, msg) ∈ pairs → exec msg i b = .error e →
      msg.errorSet (some e) ∈ mutationLoop exec b pairs := by
  intro pairs
  induction pairs with
  | nil => intro i msg e hm _; cases hm
  | cons hd tl ih =>
    obtain ⟨j, q⟩ := hd
    intro i msg e hm he
    rcases List.mem_cons.mp hm with heq | hmem
    · injection heq with h1 h2
      subst h1; subst h2
      simp only [mutationLoop, he]
      exact List.mem_cons_self _ _
    · have htail := ih i msg e hmem he
      simp only [mutationLoop]
      cases exec q j b with
      | error e2 => exact List.mem_cons_of_mem _ htail
      | ok op =>
        cases op with
        | none => exact htail
        | some np => exact List.mem_cons_of_mem _ htail

/-- C5: the mapping and mutation processors never return a fatal error; a
part whose executor call fails is kept in the (non-dropped) output batch
with its error tag set; and an empty output batch makes the processor
return `(nil, nil)`, dropping the batch. -/
theorem mapper_error_handling (exec : Nat → Batch → Except String (Option MsgPart))
    (exec2 : MsgPart → Nat → Batch → Except String (Option MsgPart)) (b : Batch) :
    (mappingProcessBatch exec b).2 = none ∧
    (mutationProcessBatch exec2 b).2 = none ∧
    (∀ i msg e, (i, msg) ∈ b.enum → exec i b = .error e →
      msg.errorSet (some e) ∈ mappingLoop exec b b.enum ∧
      mappingProcessBatch exec b = (some [mappingLoop exec b b.enum], none)) ∧
    (∀ i msg e, (i, msg) ∈ b.enum → exec2 msg i b = .error e →
      msg.errorSet (some e) ∈ mutationLoop exec2 b b.enum ∧
      mutationProcessBatch exec2 b = (some [mutationLoop exec2 b b.enum], none)) ∧
    (mappingLoop exec b b.enum = [] → mappingProcessBatch exec b = (none, none)) ∧
    (mutationLoop exec2 b b.enum = [] → mutationProcessBatch exec2 b = (none, none)) := by
  refine ⟨?_, ?_, ?_, ?_, ?_, ?_⟩
  · simp only [mappingProcessBatch]
    split <;> rfl
  · simp only [mutationProcessBatch]
    split <;> rfl
  · intro i msg e hm he
    have hmem := mappingLoop_error_mem exec b b.enum i msg e hm he
    refine ⟨hmem, ?_⟩
    unfold mappingProcessBatch
    rw [if_neg (List.ne_nil_of_mem hmem)]
  · intro i msg e hm he
    have hmem := mutationLoop_error_mem exec2 b b.enum i msg e hm he
    refine ⟨hmem, ?_⟩
    unfold mutationProcessBatch
    rw [if_neg (List.ne_nil_of_mem hmem)]
  · intro hnil
    unfold mappingProcessBatch
    rw [if_pos hnil]
  · intro hnil
    unfold mutationProcessBatch
    rw [if_pos hnil]

/-- Witness for C5: a one-part batch whose executors fail keeps the tagged
original part, and executors that delete every part drop the batch. -/
theorem mapper_error_handling_witness :
    (⟨[97], [], none⟩ : MsgPart).errorSet (some "bad")
      ∈ mappingLoop (fun _ _ => .error "bad") [⟨[97], [], none⟩]
        ([⟨[97], [], none⟩] : Batch).enum ∧
    (⟨[97], [], none⟩ : MsgPart).errorSet (some "worse")
      ∈ mutationLoop (fun _ _ _ => .error "worse") [⟨[97], [], none⟩]
        ([⟨[97], [], none⟩] : Batch).enum ∧
    mappingProcessBatch (fun _ _ => .ok none) [⟨[97], [], none⟩] = (none, none) :=
  ⟨((mapper_error_handling (fun _ _ => .error "bad") (fun _ _ _ => .error "worse")
      [⟨[97], [], none⟩]).2.2.1 0 ⟨[97], [], none⟩ "bad" (by decide) rfl).1,
   ((mapper_error_handling (fun _ _ => .error "bad") (fun _ _ _ => .error "worse")
      [⟨[97], [], none⟩]).2.2.2.1 0 ⟨[97], [], none⟩ "worse" (by decide) rfl).1,
   (mapper_error_handling (fun _ _ => .ok none) (fun _ _ _ => .error "worse")
      [⟨[97], [], none⟩]).2.2.2.2.1 rfl⟩

/-- C6: constructing the manager with two same-kind resources sharing a
label fails with the collision diagnostic, an empty-label resource fails
construction, and the same label under each of the five kinds succeeds —
the per-kind namespaces are independent. -/
theorem manager_label_uniqueness (l : String) (hl : l ≠ "") :
    managerNew ⟨[l, l], [], [], [], []⟩
      = .error ("cache resource label \x27" ++ l ++
          "\x27 collides with a previously defined resource") ∧
    managerNew ⟨[""], [], [], [], []⟩ = .error "cache resource has an empty label" ∧
    managerNew ⟨[l], [l], [l], [l], [l]⟩ = .ok ⟨[l], [l], [l], [l], [l]⟩ := by
  refine ⟨?_, rfl, ?_⟩
  · simp [managerNew, checkResourceLabels, hl, List.mem_singleton]
  · simp [managerNew, checkResourceLabels, hl, List.mem_singleton]

/-- Witness for C6 at the label used by the manager tests. -/
theorem manager_label_uniqueness_witness :
    managerNew ⟨["foo", "foo"], [], [], [], []⟩
      = .error ("cache resource label \x27foo\x27 collides with a previously defined resource") ∧
    managerNew ⟨[""], [], [], [], []⟩ = .error "cache resource has an empty label" ∧
    managerNew ⟨["foo"], ["foo"], ["foo"], ["foo"], ["foo"]⟩
      = .ok ⟨["foo"], ["foo"], ["foo"], ["foo"], ["foo"]⟩ := by
  have h := manager_label_uniqueness "foo" (by decide)
  simpa using h

/-- Counterexample to C9 as stated: the label `_foo` does not match
`[a-z][a-z0-9_]*`, yet component construction accepts it — the repository
test for construction-time label validation is skipped with the message
that labels are no longer validated at construction. -/
theorem label_validation_counterexample :
    matchesLabelPattern "_foo" = false ∧ managerNewProcessor "_foo" = .ok () :=
  ⟨by decide, rfl⟩

/-- C9 (amended): construction no longer validates labels against
`[a-z][a-z0-9_]*`: every label — matching the pattern or not — is accepted;
the pattern itself still classifies the test labels as the spec describes. -/
theorem label_validation_removed :
    (∀ l, managerNewProcessor l = .ok ()) ∧
    (["_foo", "foo-bar", "FOO", "foo.bar"].all
      (fun l => !matchesLabelPattern l)) = true ∧
    (["foo", "foo_bar", "foo_bar_baz_buz", "foo__", "foo123__45"].all
      (fun l => matchesLabelPattern l)) = true :=
  ⟨fun _ => rfl, by decide, by decide⟩
